import Mathlib

set_option maxRecDepth 8000

/-
  Verification development for the slash-command module of the Advanced-AI
  Discord bot (src/server/discord/slashCommands.ts).

  The module is shallowly embedded: message text is `List Char` (JS string
  length equals the character count for the properties below), the persistence
  store is an explicit record threaded through the handlers, and each external
  call that can throw is driven by an injected failure oracle `env : OpId → Bool`
  (`true` means that call throws).  Exceptions are modelled by the explicit
  control flow of the original try/catch blocks.
-/

namespace DiscordBot

/-! ## Message chunker (splitMessage, slashCommands.ts lines 298-335) -/

/-- Whitespace class used by the JS `String.prototype.trim` calls in
`splitMessage` (space, tab, newline, carriage return, form feed, vertical tab). -/
def isWS (c : Char) : Bool :=
  c = ' ' || c = '\t' || c = '\n' || c = '\r' || c = '\x0b' || c = '\x0c'

/-- Embedding of JS `s.trim()`: drop leading and trailing whitespace. -/
def jsTrim (s : List Char) : List Char :=
  ((s.dropWhile isWS).reverse.dropWhile isWS).reverse

/-- Embedding of JS `text.split('\n')`: split into lines at each newline;
always returns at least one (possibly empty) line. -/
def splitLines : List Char → List (List Char)
  | [] => [[]]
  | c :: cs =>
    match splitLines cs with
    | [] => [[c]]
    | l :: ls => if c = '\n' then [] :: l :: ls else (c :: l) :: ls

/-- The `while (remainingLine.length > maxLength)` loop of `splitMessage`
(lines 313-316): emit `maxLength`-sized pieces until at most `maxLength`
characters remain.  `fuel` bounds the iteration count; `hardSlice` supplies
`line.length`, which suffices whenever `maxLength ≥ 1` (each iteration strictly
shortens the line). -/
def hardSliceGo (maxLength : Nat) : Nat → List Char → List (List Char) × List Char
  | 0, rem => ([], rem)
  | fuel + 1, rem =>
    if rem.length > maxLength then
      let r := hardSliceGo maxLength fuel (rem.drop maxLength)
      (rem.take maxLength :: r.1, r.2)
    else ([], rem)

/-- Hard character-count split of a single over-long line (lines 311-317):
returns the emitted fixed-size pieces and the remainder seeded into the next
buffer. -/
def hardSlice (maxLength : Nat) (line : List Char) : List (List Char) × List Char :=
  hardSliceGo maxLength line.length line

/-- One iteration of the `for (const line of lines)` loop of `splitMessage`
(lines 305-328).  The state is `(chunks, currentChunk)`. -/
def splitStep (maxLength : Nat) (st : List (List Char) × List Char) (line : List Char) :
    List (List Char) × List Char :=
  if st.2.length + line.length + 1 > maxLength then
    let chunks := if jsTrim st.2 ≠ [] then st.1 ++ [jsTrim st.2] else st.1
    if line.length > maxLength then
      let r := hardSlice maxLength line
      (chunks ++ r.1, r.2)
    else (chunks, line)
  else
    if st.2.length > 0 then (st.1, st.2 ++ '\n' :: line) else (st.1, line)

/-- Embedding of `splitMessage(text, maxLength)` (lines 298-335).  The source
declares `maxLength = 1900` as the default; every caller in the module uses the
default, and callers here pass `1900` explicitly. -/
def splitMessage (text : List Char) (maxLength : Nat) : List (List Char) :=
  if text.length ≤ maxLength then [text]
  else
    let r := (splitLines text).foldl (splitStep maxLength) ([], [])
    let chunks := if jsTrim r.2 ≠ [] then r.1 ++ [jsTrim r.2] else r.1
    if chunks.length > 0 then chunks else [text.take maxLength]

/-! ## Data model and persistence store

The storage module itself is not part of the repository sources (only its
callers are), so the store operations below are modelled from the spec,
sections 3, 4.2 and 4.3. -/

structure StoredUser where
  discordId : String
  username : String
deriving DecidableEq, Repr

structure StoredConversation where
  id : Nat
  userId : String
  channelId : String
  guildId : Option String
deriving DecidableEq, Repr

structure StoredMessage where
  conversationId : Nat
  content : List Char
  role : String
deriving DecidableEq, Repr

/-- Guild settings record.  Field order follows the creation payloads in the
source (lines 171-181, 251-261); the source field `prefix` is spelled `pfx`
because `prefix` is not a usable identifier in Lean. -/
structure GuildSettings where
  guildId : String
  pfx : String
  responseLength : String
  personality : String
  codeFormat : Bool
  allowedChannels : List String
  channelMode : String
  slashCommandMode : String
  activatedChannels : List String
deriving DecidableEq, Repr

structure BotStats where
  totalMessages : Nat
  apiCalls : Nat
deriving DecidableEq, Repr

structure Store where
  users : List StoredUser
  conversations : List StoredConversation
  messages : List StoredMessage
  settings : List GuildSettings
  botStats : Option BotStats
deriving DecidableEq, Repr

/-- Modelled from the spec: `ensureUser` lookup half — get a user by platform
identity (spec section 4.3). -/
def getUserByDiscordId (st : Store) (discordId : String) : Option StoredUser :=
  st.users.find? (fun u => u.discordId == discordId)

/-- Modelled from the spec: create a user record (spec section 4.3);
append-only. -/
def createUser (st : Store) (u : StoredUser) : StoredUser × Store :=
  (u, { st with users := st.users ++ [u] })

/-- Modelled from the spec: conversation lookup keyed by (channelId, userId)
(spec section 4.3). -/
def getConversationByChannelAndUser (st : Store) (channelId userId : String) :
    Option StoredConversation :=
  st.conversations.find? (fun c => c.channelId == channelId && c.userId == userId)

structure NewConversation where
  userId : String
  channelId : String
  guildId : Option String
deriving DecidableEq, Repr

/-- Modelled from the spec: create a conversation record (spec section 4.3);
the internal id is fresh (conversations are never deleted). -/
def createConversation (st : Store) (c : NewConversation) : StoredConversation × Store :=
  let conv : StoredConversation :=
    { id := st.conversations.length, userId := c.userId,
      channelId := c.channelId, guildId := c.guildId }
  (conv, { st with conversations := st.conversations ++ [conv] })

/-- Modelled from the spec: `appendMessage` — always creates a new record
(spec section 4.3). -/
def createMessage (st : Store) (m : StoredMessage) : StoredMessage × Store :=
  (m, { st with messages := st.messages ++ [m] })

/-- Modelled from the spec: messages of one conversation in creation order
(spec section 4.3). -/
def getMessagesByConversation (st : Store) (conversationId : Nat) : List StoredMessage :=
  st.messages.filter (fun m => m.conversationId == conversationId)

/-- Modelled from the spec: settings lookup by guild id (spec section 4.2,
`resolve`). -/
def getSettingsByGuildId (st : Store) (guildId : String) : Option GuildSettings :=
  st.settings.find? (fun s => s.guildId == guildId)

/-- Modelled from the spec: `upsert` (spec section 4.2) — merge the supplied
fields over an existing record for the same guild id, or insert a new record.
Every caller in the module supplies a complete record (built by spreading the
existing record), so the merged result is the supplied payload. -/
def createOrUpdateSettings (st : Store) (payload : GuildSettings) : GuildSettings × Store :=
  match st.settings.find? (fun s => s.guildId == payload.guildId) with
  | some _ =>
    (payload,
     { st with settings :=
         st.settings.map (fun s => if s.guildId == payload.guildId then payload else s) })
  | none => (payload, { st with settings := st.settings ++ [payload] })

/-- Modelled from the spec: read the singleton stats record (spec section 3);
absent until first written. -/
def getBotStats (st : Store) : Option BotStats := st.botStats

/-- Modelled from the spec: write the singleton stats record with the supplied
field values (spec sections 3 and 4.3; the handler computes the new absolute
values itself and this operation stores them). -/
def updateBotStats (st : Store) (payload : BotStats) : Store :=
  { st with botStats := some payload }

/-! ## Discord interaction model -/

/-- Observable reply primitives of the command transport (spec section 6).
`reply` carries the ephemeral flag (`flags: 64` in the source). -/
inductive Action where
  | deferReply
  | editReply (content : List Char)
  | followUp (content : List Char)
  | reply (content : List Char) (ephemeral : Bool)
deriving DecidableEq, Repr

/-- The `interaction.replied` / `interaction.deferred` flags consulted by the
dispatcher error boundary (lines 69 and 74). -/
structure InterState where
  replied : Bool
  deferred : Bool
deriving DecidableEq, Repr

/-- One identifier per fallible external call site in the module.  The failure
oracle `env : OpId → Bool` marks which call sites throw. -/
inductive OpId where
  | deferReplyAsk
  | opGetUser
  | opCreateUser
  | opGetConversation
  | opCreateConversation
  | createUserMessage
  | getMessagesOp
  | getSettingsAsk
  | generate
  | createAssistantMessage
  | editReplyFull
  | editReplyFirstChunk
  | followUpChunk (i : Nat)
  | getStatsForTotal
  | getStatsForApi
  | updateStatsOp
  | editReplyAskError
  | getSettingsActivate
  | upsertSettingsActivate
  | replyActivate
  | replyActivateError
  | getSettingsDeactivate
  | upsertSettingsDeactivate
  | replyDeactivate
  | replyNoSettings
  | replyDeactivateError
  | getSettingsMode
  | upsertSettingsMode
  | replyMode
  | replyModeError
  | replyUnknown
  | dispatcherReplyError
  | dispatcherEditError
deriving DecidableEq, Repr

/-- JS `x || d` on an optional string: `undefined` and the empty string are
falsy. -/
def jsOr (o : Option String) (d : String) : String :=
  match o with
  | some s => if s = "" then d else s
  | none => d

/-- JS `x || null` on an optional string (line 108). -/
def jsOrNull (o : Option String) : Option String :=
  match o with
  | some s => if s = "" then none else some s
  | none => none

/-- Identity and argument context delivered with a slash command. -/
structure CommandInput where
  userId : String
  username : String
  channelId : Option String
  guildId : Option String
  promptArg : List Char
  modeArg : String
deriving DecidableEq, Repr

/-- Result of running a handler: the store, the reply actions performed in
order, the interaction flags, and whether an exception escaped the handler. -/
structure HandlerOutcome where
  store : Store
  actions : List Action
  istate : InterState
  thrown : Bool
deriving DecidableEq, Repr

/-! ## Message texts (verbatim from the source) -/

def errGenerating : List Char :=
  "Sorry, I encountered an error while generating a response.".toList

def errProcessing : List Char :=
  "Sorry, I encountered an error while processing your command.".toList

def activateConfirm : List Char :=
  ("✅ AI responses activated in this channel!\n\nI will now respond to all messages in this channel. Use `/deactivate` to stop responses.").toList

def errActivating : List Char :=
  "Sorry, I encountered an error while activating this channel.".toList

def deactivateConfirm : List Char :=
  ("✅ AI responses deactivated in this channel!\n\nI will no longer respond to messages in this channel. Use `/activate` to enable responses again.").toList

def noSettingsMsg : List Char :=
  "No settings found for this server.".toList

def errDeactivating : List Char :=
  "Sorry, I encountered an error while deactivating this channel.".toList

def errUpdatingMode : List Char :=
  "Sorry, I encountered an error while updating the AI mode.".toList

def unknownCommandMsg : List Char :=
  "Unknown command. Available commands: /ai, /activate, /deactivate, /aimode".toList

/-- The `switch (mode)` descriptions of `handleAIModeCommand` (lines 270-283). -/
def modeDescription (mode : String) : List Char :=
  if mode = "disabled" then
    "The bot will respond to all messages normally (no slash command required)".toList
  else if mode = "enabled" then
    "The bot will respond to both regular messages and slash commands".toList
  else if mode = "required" then
    "The bot will ONLY respond when summoned via /ai command".toList
  else
    "The bot will only respond in channels activated with /activate command".toList

/-- The reply content assembled by `handleAIModeCommand` (line 286). -/
def modeReplyContent (mode : String) : List Char :=
  "✅ AI mode updated!\n\n**".toList ++ modeDescription mode ++
    "**\n\nUse `/ai [your prompt]` to interact with the AI assistant.".toList

/-! ## The ask handler (handleAICommand, lines 83-161) -/

/-- The `catch` block of `handleAICommand` (lines 157-160): edit the deferred
reply with the generic generation-error text; if that edit itself throws, the
exception escapes the handler. -/
def askCatch (env : OpId → Bool) (st : Store) (acts : List Action) (is : InterState) :
    HandlerOutcome :=
  if env .editReplyAskError then ⟨st, acts, is, true⟩
  else ⟨st, acts ++ [.editReply errGenerating], { is with replied := true }, false⟩

/-- The follow-up loop of `handleAICommand` (lines 146-148); returns the
actions performed and whether a send threw. -/
def sendFollowUps (env : OpId → Bool) : List (List Char) → Nat → List Action →
    List Action × Bool
  | [], _, acts => (acts, false)
  | c :: rest, i, acts =>
    if env (.followUpChunk i) then (acts, true)
    else sendFollowUps env rest (i + 1) (acts ++ [.followUp c])

/-- The stats update of `handleAICommand` (lines 151-155), preserving the JS
operator precedence of the source: `x ?? 0 + 1` parses as `x ?? (0 + 1)`, so an
existing counter value is written back unchanged and only a missing record
yields `1`.  Two independent `getBotStats` reads happen before the write, as in
the source. -/
def askStats (env : OpId → Bool) (st : Store) (acts : List Action) (is : InterState) :
    HandlerOutcome :=
  if env .getStatsForTotal then askCatch env st acts is
  else
    let s1 := getBotStats st
    if env .getStatsForApi then askCatch env st acts is
    else
      let s2 := getBotStats st
      if env .updateStatsOp then askCatch env st acts is
      else
        let payload : BotStats :=
          { totalMessages := match s1 with | some b => b.totalMessages | none => 0 + 1
            apiCalls := match s2 with | some b => b.apiCalls | none => 0 + 1 }
        ⟨updateBotStats st payload, acts, is, false⟩

/-- Response delivery of `handleAICommand` (lines 140-149): a short response
edits the deferred reply directly; a long one is chunked, the first chunk edits
the deferred reply and the rest are follow-up sends. -/
def askDeliver (env : OpId → Bool) (response : List Char) (st : Store)
    (acts : List Action) (is : InterState) : HandlerOutcome :=
  if response.length ≤ 1900 then
    if env .editReplyFull then askCatch env st acts is
    else askStats env st (acts ++ [.editReply response]) { is with replied := true }
  else
    let chunks := splitMessage response 1900
    if env .editReplyFirstChunk then askCatch env st acts is
    else
      let acts1 := acts ++ [.editReply (chunks.headD [])]
      let is1 := { is with replied := true }
      match sendFollowUps env (chunks.drop 1) 1 acts1 with
      | (acts2, true) => askCatch env st acts2 is1
      | (acts2, false) => askStats env st acts2 is1

/-- Body of `handleAICommand` after the conversation is resolved (lines
112-155): persist the user message, read the context window, resolve settings,
call the generation backend, persist the assistant message, deliver, update
stats. -/
def askCore (env : OpId → Bool) (inp : CommandInput)
    (gen : List Char → List StoredMessage → Option String → Option String → List Char)
    (st : Store) (conversationId : Nat) (acts : List Action) (is : InterState) :
    HandlerOutcome :=
  if env .createUserMessage then askCatch env st acts is
  else
    let st1 := (createMessage st ⟨conversationId, inp.promptArg, "user"⟩).2
    if env .getMessagesOp then askCatch env st1 acts is
    else
      let recent := getMessagesByConversation st1 conversationId
      let contextMessages := recent.drop (recent.length - 10)
      let guildId := jsOr inp.guildId "DM"
      if env .getSettingsAsk then askCatch env st1 acts is
      else
        let settings := getSettingsByGuildId st1 guildId
        if env .generate then askCatch env st1 acts is
        else
          let response :=
            gen inp.promptArg contextMessages (settings.map (fun s => s.personality))
              (settings.map (fun s => s.responseLength))
          if env .createAssistantMessage then askCatch env st1 acts is
          else
            let st2 := (createMessage st1 ⟨conversationId, response, "assistant"⟩).2
            askDeliver env response st2 acts is

/-- Conversation resolution of `handleAICommand` (lines 99-110). -/
def askConversation (env : OpId → Bool) (inp : CommandInput)
    (gen : List Char → List StoredMessage → Option String → Option String → List Char)
    (st : Store) (acts : List Action) (is : InterState) : HandlerOutcome :=
  if env .opGetConversation then askCatch env st acts is
  else
    let channelId := jsOr inp.channelId "DM"
    match getConversationByChannelAndUser st channelId inp.userId with
    | some conv => askCore env inp gen st conv.id acts is
    | none =>
      if env .opCreateConversation then askCatch env st acts is
      else
        let r := createConversation st
          { userId := inp.userId, channelId := channelId, guildId := jsOrNull inp.guildId }
        askCore env inp gen r.2 r.1.id acts is

/-- Embedding of `handleAICommand` (lines 83-161).  `deferReply` (line 86) runs
before the try block, so its failure escapes the handler directly; everything
else is inside the try whose catch is `askCatch`. -/
def handleAICommand (env : OpId → Bool) (inp : CommandInput)
    (gen : List Char → List StoredMessage → Option String → Option String → List Char)
    (st : Store) : HandlerOutcome :=
  if env .deferReplyAsk then ⟨st, [], ⟨false, false⟩, true⟩
  else
    let acts := [Action.deferReply]
    let is : InterState := ⟨false, true⟩
    if env .opGetUser then askCatch env st acts is
    else
      match getUserByDiscordId st inp.userId with
      | some _ => askConversation env inp gen st acts is
      | none =>
        if env .opCreateUser then askCatch env st acts is
        else askConversation env inp gen (createUser st ⟨inp.userId, inp.username⟩).2 acts is

/-! ## Activate / deactivate / aimode handlers (lines 163-296) -/

/-- The `catch` block of `handleActivateCommand` (lines 199-205). -/
def activateCatch (env : OpId → Bool) (st : Store) : HandlerOutcome :=
  if env .replyActivateError then ⟨st, [], ⟨false, false⟩, true⟩
  else ⟨st, [.reply errActivating true], ⟨true, false⟩, false⟩

/-- Embedding of `handleActivateCommand` (lines 163-206). -/
def handleActivateCommand (env : OpId → Bool) (inp : CommandInput) (st : Store) :
    HandlerOutcome :=
  let guildId := jsOr inp.guildId "DM"
  let channelId := jsOr inp.channelId "DM"
  if env .getSettingsActivate then activateCatch env st
  else
    match getSettingsByGuildId st guildId with
    | none =>
      if env .upsertSettingsActivate then activateCatch env st
      else
        let st1 := (createOrUpdateSettings st
          { guildId := guildId, pfx := "", responseLength := "medium",
            personality := "helpful", codeFormat := true, allowedChannels := [],
            channelMode := "all", slashCommandMode := "activated",
            activatedChannels := [channelId] }).2
        if env .replyActivate then activateCatch env st1
        else ⟨st1, [.reply activateConfirm true], ⟨true, false⟩, false⟩
    | some settings =>
      if env .upsertSettingsActivate then activateCatch env st
      else
        let activatedChannels :=
          if settings.activatedChannels.contains channelId then settings.activatedChannels
          else settings.activatedChannels ++ [channelId]
        let st1 := (createOrUpdateSettings st
          { settings with activatedChannels := activatedChannels,
                          slashCommandMode := "activated" }).2
        if env .replyActivate then activateCatch env st1
        else ⟨st1, [.reply activateConfirm true], ⟨true, false⟩, false⟩

/-- The `catch` block of `handleDeactivateCommand` (lines 234-240). -/
def deactivateCatch (env : OpId → Bool) (st : Store) : HandlerOutcome :=
  if env .replyDeactivateError then ⟨st, [], ⟨false, false⟩, true⟩
  else ⟨st, [.reply errDeactivating true], ⟨true, false⟩, false⟩

/-- Embedding of `handleDeactivateCommand` (lines 208-241).  Note that it only
filters the channel out of `activatedChannels`; it does not modify
`slashCommandMode`. -/
def handleDeactivateCommand (env : OpId → Bool) (inp : CommandInput) (st : Store) :
    HandlerOutcome :=
  let guildId := jsOr inp.guildId "DM"
  let channelId := jsOr inp.channelId "DM"
  if env .getSettingsDeactivate then deactivateCatch env st
  else
    match getSettingsByGuildId st guildId with
    | none =>
      if env .replyNoSettings then deactivateCatch env st
      else ⟨st, [.reply noSettingsMsg true], ⟨true, false⟩, false⟩
    | some settings =>
      if env .upsertSettingsDeactivate then deactivateCatch env st
      else
        let activatedChannels := settings.activatedChannels.filter (fun id => id ≠ channelId)
        let st1 := (createOrUpdateSettings st
          { settings with activatedChannels := activatedChannels }).2
        if env .replyDeactivate then deactivateCatch env st1
        else ⟨st1, [.reply deactivateConfirm true], ⟨true, false⟩, false⟩

/-- The `catch` block of `handleAIModeCommand` (lines 289-295). -/
def aimodeCatch (env : OpId → Bool) (st : Store) : HandlerOutcome :=
  if env .replyModeError then ⟨st, [], ⟨false, false⟩, true⟩
  else ⟨st, [.reply errUpdatingMode true], ⟨true, false⟩, false⟩

/-- Embedding of `handleAIModeCommand` (lines 243-296).  The mode argument is
schema-restricted to the four enumerated values. -/
def handleAIModeCommand (env : OpId → Bool) (inp : CommandInput) (st : Store) :
    HandlerOutcome :=
  let mode := inp.modeArg
  let guildId := jsOr inp.guildId "DM"
  if env .getSettingsMode then aimodeCatch env st
  else
    match getSettingsByGuildId st guildId with
    | none =>
      if env .upsertSettingsMode then aimodeCatch env st
      else
        let st1 := (createOrUpdateSettings st
          { guildId := guildId, pfx := "", responseLength := "medium",
            personality := "helpful", codeFormat := true, allowedChannels := [],
            channelMode := "all", slashCommandMode := mode,
            activatedChannels := [] }).2
        if env .replyMode then aimodeCatch env st1
        else ⟨st1, [.reply (modeReplyContent mode) true], ⟨true, false⟩, false⟩
    | some settings =>
      if env .upsertSettingsMode then aimodeCatch env st
      else
        let st1 := (createOrUpdateSettings st
          { settings with slashCommandMode := mode }).2
        if env .replyMode then aimodeCatch env st1
        else ⟨st1, [.reply (modeReplyContent mode) true], ⟨true, false⟩, false⟩

/-! ## Dispatcher (handleSlashCommand, lines 43-81) -/

/-- The dispatcher error boundary (lines 66-80): if nothing was replied or
deferred, send the generic apology; if a deferred reply is outstanding, edit it
with the same text; a failure of this error reply is swallowed.  The outcome
never re-raises. -/
def dispatchRecover (env : OpId → Bool) (st : Store) (acts : List Action)
    (is : InterState) : HandlerOutcome :=
  if !is.replied && !is.deferred then
    if env .dispatcherReplyError then ⟨st, acts, is, false⟩
    else ⟨st, acts ++ [.reply errProcessing true], { is with replied := true }, false⟩
  else if is.deferred then
    if env .dispatcherEditError then ⟨st, acts, is, false⟩
    else ⟨st, acts ++ [.editReply errProcessing], { is with replied := true }, false⟩
  else ⟨st, acts, is, false⟩

/-- Embedding of `handleSlashCommand` (lines 43-81): route by command name,
then apply the error boundary to any escaped exception. -/
def handleSlashCommand (env : OpId → Bool) (commandName : String) (inp : CommandInput)
    (gen : List Char → List StoredMessage → Option String → Option String → List Char)
    (st : Store) : HandlerOutcome :=
  let r :=
    if commandName == "ai" then handleAICommand env inp gen st
    else if commandName == "activate" then handleActivateCommand env inp st
    else if commandName == "deactivate" then handleDeactivateCommand env inp st
    else if commandName == "aimode" then handleAIModeCommand env inp st
    else if env .replyUnknown then ⟨st, [], ⟨false, false⟩, true⟩
    else ⟨st, [.reply unknownCommandMsg true], ⟨true, false⟩, false⟩
  if r.thrown then dispatchRecover env r.store r.actions r.istate else r

/-- The all-successful failure oracle: no external call throws. -/
def envOK : OpId → Bool := fun _ => false

/-- Failure oracle where exactly one call site throws. -/
def envFail (bad : OpId) : OpId → Bool := fun op => op == bad

/-- Failure oracle where only the stats write throws (a failure after the
response has been delivered). -/
def envUpdateStatsFails : OpId → Bool := fun op =>
  match op with
  | .updateStatsOp => true
  | _ => false

/-- Failure oracle where only the first follow-up send throws (a failure after
the first chunk has been delivered). -/
def envFollowUp1Fails : OpId → Bool := fun op =>
  match op with
  | .followUpChunk 1 => true
  | _ => false

/-- A generation backend returning a fixed response, ignoring its inputs. -/
def genConst (r : List Char) :
    List Char → List StoredMessage → Option String → Option String → List Char :=
  fun _ _ _ _ => r

/-! ## Concrete fixtures for closed instance checks -/

def sampleSettings : GuildSettings :=
  { guildId := "G1", pfx := "", responseLength := "long", personality := "sarcastic",
    codeFormat := false, allowedChannels := ["C9"], channelMode := "whitelist",
    slashCommandMode := "enabled", activatedChannels := ["C1"] }

def emptyStore : Store :=
  { users := [], conversations := [], messages := [], settings := [], botStats := none }

def sampleStore : Store :=
  { users := [], conversations := [], messages := [], settings := [sampleSettings],
    botStats := none }

def statsStore : Store :=
  { users := [], conversations := [], messages := [], settings := [],
    botStats := some { totalMessages := 5, apiCalls := 3 } }

def sampleInput : CommandInput :=
  { userId := "u1", username := "alice", channelId := some "C1", guildId := some "G1",
    promptArg := "hello".toList, modeArg := "required" }

/-! ## Chunker lemmas -/

theorem length_dropWhile_isWS_le (p : Char → Bool) (l : List Char) :
    (l.dropWhile p).length ≤ l.length := by
  induction l with
  | nil => simp [List.dropWhile]
  | cons c cs ih =>
    by_cases h : p c
    · simp only [List.dropWhile, h]
      exact Nat.le_succ_of_le ih
    · simp [List.dropWhile, h]

theorem jsTrim_length_le (s : List Char) : (jsTrim s).length ≤ s.length := by
  unfold jsTrim
  calc ((s.dropWhile isWS).reverse.dropWhile isWS).reverse.length
      = ((s.dropWhile isWS).reverse.dropWhile isWS).length := by simp
    _ ≤ (s.dropWhile isWS).reverse.length := length_dropWhile_isWS_le _ _
    _ = (s.dropWhile isWS).length := by simp
    _ ≤ s.length := length_dropWhile_isWS_le _ _

theorem dropWhile_eq_self_of_forall (p : Char → Bool) (l : List Char)
    (h : ∀ c ∈ l, p c = false) : l.dropWhile p = l := by
  cases l with
  | nil => rfl
  | cons c cs => simp [List.dropWhile, h c (List.mem_cons_self c cs)]

theorem jsTrim_eq_self (s : List Char) (h : ∀ c ∈ s, isWS c = false) : jsTrim s = s := by
  unfold jsTrim
  rw [dropWhile_eq_self_of_forall isWS s h]
  rw [dropWhile_eq_self_of_forall isWS s.reverse (fun c hc => h c (List.mem_reverse.mp hc))]
  exact List.reverse_reverse s

theorem dropWhile_isWS_replicate_space (n : Nat) :
    (List.replicate n ' ').dropWhile isWS = [] := by
  induction n with
  | zero => rfl
  | succ m ih => simp [List.replicate_succ, List.dropWhile, isWS, ih]

theorem jsTrim_replicate_space (n : Nat) : jsTrim (List.replicate n ' ') = [] := by
  unfold jsTrim
  rw [dropWhile_isWS_replicate_space]
  rfl

theorem splitLines_no_newline (s : List Char) (h : ∀ c ∈ s, c ≠ '\n') :
    splitLines s = [s] := by
  induction s with
  | nil => rfl
  | cons c cs ih =>
    have hc : c ≠ '\n' := h c (List.mem_cons_self c cs)
    have hcs : splitLines cs = [cs] := ih (fun x hx => h x (List.mem_cons_of_mem c hx))
    simp [splitLines, hcs, hc]

theorem hardSliceGo_spec (L : Nat) (hL : 1 ≤ L) (fuel : Nat) :
    ∀ rem : List Char, rem.length ≤ fuel →
      (hardSliceGo L fuel rem).1.flatten ++ (hardSliceGo L fuel rem).2 = rem ∧
      (∀ p ∈ (hardSliceGo L fuel rem).1, p.length = L) ∧
      (hardSliceGo L fuel rem).1.length = (rem.length - 1) / L ∧
      (L < rem.length →
        1 ≤ (hardSliceGo L fuel rem).2.length ∧ (hardSliceGo L fuel rem).2.length ≤ L) := by
  induction fuel with
  | zero =>
    intro rem hlen
    have : rem = [] := List.eq_nil_of_length_eq_zero (Nat.le_zero.mp hlen)
    subst this
    simp [hardSliceGo]
  | succ n ih =>
    intro rem hlen
    by_cases hgt : rem.length > L
    · have hdrop : (rem.drop L).length ≤ n := by
        rw [List.length_drop]
        omega
      obtain ⟨ihj, ihp, ihc, ihr⟩ := ih (rem.drop L) hdrop
      simp only [hardSliceGo, if_pos hgt]
      refine ⟨?_, ?_, ?_, ?_⟩
      · rw [List.flatten_cons, List.append_assoc, ihj, List.take_append_drop]
      · intro p hp
        rcases List.mem_cons.mp hp with hp | hp
        · subst hp
          rw [List.length_take]
          omega
        · exact ihp p hp
      · rw [List.length_cons, ihc, List.length_drop]
        have hle : L ≤ rem.length - 1 := by omega
        rw [Nat.div_eq_sub_div (by omega : 0 < L) hle]
        have heq : rem.length - 1 - L = rem.length - L - 1 := by omega
        rw [heq]
      · intro _
        by_cases h2 : L < (rem.drop L).length
        · exact ihr h2
        · have hlen2 : (rem.drop L).length ≤ L := Nat.le_of_not_lt h2
          rw [List.length_drop] at hlen2
          have hc0 : (hardSliceGo L n (rem.drop L)).1.length = 0 := by
            rw [ihc, List.length_drop]
            apply Nat.div_eq_of_lt
            omega
          have hnil : (hardSliceGo L n (rem.drop L)).1 = [] :=
            List.eq_nil_of_length_eq_zero hc0
          have hr2 : (hardSliceGo L n (rem.drop L)).2 = rem.drop L := by
            rw [hnil] at ihj
            simpa using ihj
          rw [hr2, List.length_drop]
          omega
    · simp only [hardSliceGo, if_neg hgt]
      have hlt : rem.length - 1 < L := by omega
      refine ⟨by simp, by simp, by simp [Nat.div_eq_of_lt hlt], ?_⟩
      intro hcon
      omega

theorem hardSlice_spec (L : Nat) (hL : 1 ≤ L) (line : List Char) :
    (hardSlice L line).1.flatten ++ (hardSlice L line).2 = line ∧
    (∀ p ∈ (hardSlice L line).1, p.length = L) ∧
    (hardSlice L line).1.length = (line.length - 1) / L ∧
    (L < line.length →
      1 ≤ (hardSlice L line).2.length ∧ (hardSlice L line).2.length ≤ L) :=
  hardSliceGo_spec L hL line.length line (Nat.le_refl _)

theorem splitStep_preserves (L : Nat) (hL : 1 ≤ L) (st : List (List Char) × List Char)
    (line : List Char) (hc : ∀ c ∈ st.1, c.length ≤ L) (hcur : st.2.length ≤ L) :
    (∀ c ∈ (splitStep L st line).1, c.length ≤ L) ∧ (splitStep L st line).2.length ≤ L := by
  have hchunks : ∀ c ∈ (if jsTrim st.2 ≠ [] then st.1 ++ [jsTrim st.2] else st.1),
      c.length ≤ L := by
    split
    · intro c hcm
      rcases List.mem_append.mp hcm with hcm | hcm
      · exact hc c hcm
      · rw [List.mem_singleton.mp hcm]
        exact Nat.le_trans (jsTrim_length_le st.2) hcur
    · exact hc
  unfold splitStep
  by_cases h1 : st.2.length + line.length + 1 > L
  · simp only [if_pos h1]
    by_cases h2 : line.length > L
    · simp only [if_pos h2]
      obtain ⟨_, hp, _, hr⟩ := hardSlice_spec L hL line
      refine ⟨?_, (hr h2).2⟩
      intro c hcm
      rcases List.mem_append.mp hcm with hcm | hcm
      · exact hchunks c hcm
      · exact Nat.le_of_eq (hp c hcm)
    · simp only [if_neg h2]
      exact ⟨hchunks, Nat.le_of_not_lt h2⟩
  · simp only [if_neg h1]
    by_cases h3 : st.2.length > 0
    · simp only [if_pos h3]
      refine ⟨hc, ?_⟩
      simp only [List.length_append, List.length_cons]
      omega
    · simp only [if_neg h3]
      exact ⟨hc, by omega⟩

theorem foldl_splitStep_inv (L : Nat) (hL : 1 ≤ L) (lines : List (List Char)) :
    ∀ st : List (List Char) × List Char,
      (∀ c ∈ st.1, c.length ≤ L) → st.2.length ≤ L →
      (∀ c ∈ (lines.foldl (splitStep L) st).1, c.length ≤ L) ∧
      (lines.foldl (splitStep L) st).2.length ≤ L := by
  induction lines with
  | nil => intro st h1 h2; exact ⟨h1, h2⟩
  | cons l ls ih =>
    intro st h1 h2
    obtain ⟨h1', h2'⟩ := splitStep_preserves L hL st l h1 h2
    exact ih _ h1' h2'

theorem hardSliceGo_step (L fuel : Nat) (rem : List Char) (h : rem.length > L) :
    hardSliceGo L (fuel + 1) rem =
      ((rem.take L) :: (hardSliceGo L fuel (rem.drop L)).1,
        (hardSliceGo L fuel (rem.drop L)).2) := by
  simp [hardSliceGo, if_pos h]

theorem hardSliceGo_stop (L fuel : Nat) (rem : List Char) (h : ¬ rem.length > L) :
    hardSliceGo L (fuel + 1) rem = ([], rem) := by
  simp [hardSliceGo, if_neg h]

theorem hardSliceGo_fuel_succ_pos (L f fuel : Nat) (rem : List Char) (hf : f = fuel + 1)
    (h : rem.length > L) :
    hardSliceGo L f rem = ((rem.take L) :: (hardSliceGo L fuel (rem.drop L)).1,
      (hardSliceGo L fuel (rem.drop L)).2) := by
  subst hf
  exact hardSliceGo_step L fuel rem h

theorem hardSliceGo_fuel_succ_stop (L f fuel : Nat) (rem : List Char) (hf : f = fuel + 1)
    (h : ¬ rem.length > L) : hardSliceGo L f rem = ([], rem) := by
  subst hf
  exact hardSliceGo_stop L fuel rem h

/-- Symbolic evaluation of the hard-slice loop on a 5000-character line with
the default 1900-character limit: two full pieces and a 1200-character
remainder. -/
theorem hardSlice_5000 (s : List Char) (h5 : s.length = 5000) :
    hardSlice 1900 s = ([s.take 1900, (s.drop 1900).take 1900], s.drop 3800) := by
  unfold hardSlice
  rw [h5]
  have hd1 : (s.drop 1900).length = 3100 := by rw [List.length_drop, h5]
  have hd2 : ((s.drop 1900).drop 1900).length = 1200 := by
    rw [List.length_drop, hd1]
  rw [show (5000 : Nat) = 4999 + 1 from rfl,
    hardSliceGo_step 1900 4999 s (by omega)]
  rw [show (4999 : Nat) = 4998 + 1 from rfl,
    hardSliceGo_step 1900 4998 (s.drop 1900) (by omega)]
  rw [show (4998 : Nat) = 4997 + 1 from rfl,
    hardSliceGo_stop 1900 4997 ((s.drop 1900).drop 1900) (by omega)]
  rw [List.drop_drop]

/-- Symbolic evaluation of `splitMessage` on a 5000-character newline-free
input: the two hard-sliced 1900-character pieces, plus the trimmed
1200-character remainder when that trim is non-empty. -/
theorem splitMessage_5000_no_newline (s : List Char) (h5 : s.length = 5000)
    (hn : ∀ c ∈ s, c ≠ '\n') :
    splitMessage s 1900 =
      if jsTrim (s.drop 3800) ≠ [] then
        [s.take 1900, (s.drop 1900).take 1900, jsTrim (s.drop 3800)]
      else [s.take 1900, (s.drop 1900).take 1900] := by
  have hcond : ¬ s.length ≤ 1900 := by omega
  have hstep : splitStep 1900 ([], []) s =
      ([s.take 1900, (s.drop 1900).take 1900], s.drop 3800) := by
    have h1 : (([], []) : List (List Char) × List Char).2.length + s.length + 1 > 1900 := by
      simp only []
      omega
    have h2 : s.length > 1900 := by omega
    simp only [splitStep, if_pos h1, if_pos h2, hardSlice_5000 s h5]
    simp [jsTrim]
    try omega
  unfold splitMessage
  rw [if_neg hcond, splitLines_no_newline s hn]
  simp only [List.foldl_cons, List.foldl_nil, hstep]
  by_cases hj : jsTrim (s.drop 3800) ≠ []
  · simp [hj]
  · simp [hj]

/-! ## Theorems for the chunker claims -/

/-- Claim C5: for every input string and every maximum segment length L ≥ 1,
every segment returned by splitMessage has length at most L. -/
theorem splitMessage_segments_within_limit (text : List Char) (L : Nat) (hL : 1 ≤ L) :
    ∀ c ∈ splitMessage text L, c.length ≤ L := by
  intro c hc
  by_cases h : text.length ≤ L
  · unfold splitMessage at hc
    rw [if_pos h] at hc
    rw [List.mem_singleton.mp hc]
    exact h
  · obtain ⟨h1, h2⟩ := foldl_splitStep_inv L hL (splitLines text) ([], [])
      (by intro x hx; simp at hx) (by simp)
    simp only [splitMessage, if_neg h] at hc
    set r := (splitLines text).foldl (splitStep L) ([], []) with hr
    by_cases hj : jsTrim r.2 ≠ []
    · rw [if_pos hj, if_pos (by simp)] at hc
      rcases List.mem_append.mp hc with hm | hm
      · exact h1 c hm
      · rw [List.mem_singleton.mp hm]
        exact Nat.le_trans (jsTrim_length_le _) h2
    · rw [if_neg hj] at hc
      by_cases hl : r.1.length > 0
      · rw [if_pos hl] at hc
        exact h1 c hc
      · rw [if_neg hl] at hc
        rw [List.mem_singleton.mp hc, List.length_take]
        omega

theorem splitMessage_segments_within_limit_witness :
    1 ≤ 2 ∧ ∀ c ∈ splitMessage ("abcde".toList) 2, c.length ≤ 2 :=
  ⟨by decide, splitMessage_segments_within_limit ("abcde".toList) 2 (by decide)⟩

/-- Claim C9: an input already within the limit is returned as the single
segment, unchanged. -/
theorem splitMessage_short_identity (s : List Char) (L : Nat) (_hL : 1 ≤ L)
    (h : s.length ≤ L) : splitMessage s L = [s] := by
  unfold splitMessage
  rw [if_pos h]

theorem splitMessage_short_identity_witness :
    1 ≤ 5 ∧ ("hi".toList).length ≤ 5 ∧ splitMessage ("hi".toList) 5 = ["hi".toList] :=
  ⟨by decide, by decide,
    splitMessage_short_identity ("hi".toList) 5 (by decide) (by decide)⟩

/-! ## Exception-flow lemmas for the ask handler -/

theorem askCatch_not_thrown (env : OpId → Bool) (st : Store) (acts : List Action)
    (is : InterState) (h : env .editReplyAskError = false) :
    (askCatch env st acts is).thrown = false := by
  simp [askCatch, h]

theorem askStats_not_thrown (env : OpId → Bool) (st : Store) (acts : List Action)
    (is : InterState) (h : env .editReplyAskError = false) :
    (askStats env st acts is).thrown = false := by
  unfold askStats
  split
  · exact askCatch_not_thrown env st acts is h
  · split
    · exact askCatch_not_thrown env st acts is h
    · split
      · exact askCatch_not_thrown env st acts is h
      · rfl

theorem askDeliver_not_thrown (env : OpId → Bool) (response : List Char) (st : Store)
    (acts : List Action) (is : InterState) (h : env .editReplyAskError = false) :
    (askDeliver env response st acts is).thrown = false := by
  unfold askDeliver
  split
  · split
    · exact askCatch_not_thrown env st acts is h
    · exact askStats_not_thrown env st _ _ h
  · split
    · exact askCatch_not_thrown env st acts is h
    · dsimp only
      split
      · exact askCatch_not_thrown env st _ _ h
      · exact askStats_not_thrown env st _ _ h

theorem askCore_not_thrown (env : OpId → Bool) (inp : CommandInput)
    (gen : List Char → List StoredMessage → Option String → Option String → List Char)
    (st : Store) (cid : Nat) (acts : List Action) (is : InterState)
    (h : env .editReplyAskError = false) :
    (askCore env inp gen st cid acts is).thrown = false := by
  unfold askCore
  split
  · exact askCatch_not_thrown env st acts is h
  · split
    · exact askCatch_not_thrown env _ acts is h
    · split
      · exact askCatch_not_thrown env _ acts is h
      · split
        · exact askCatch_not_thrown env _ acts is h
        · split
          · exact askCatch_not_thrown env _ acts is h
          · exact askDeliver_not_thrown env _ _ acts is h

theorem askConversation_not_thrown (env : OpId → Bool) (inp : CommandInput)
    (gen : List Char → List StoredMessage → Option String → Option String → List Char)
    (st : Store) (acts : List Action) (is : InterState)
    (h : env .editReplyAskError = false) :
    (askConversation env inp gen st acts is).thrown = false := by
  unfold askConversation
  split
  · exact askCatch_not_thrown env st acts is h
  · dsimp only
    split
    · exact askCore_not_thrown env inp gen st _ acts is h
    · split
      · exact askCatch_not_thrown env st acts is h
      · exact askCore_not_thrown env inp gen _ _ acts is h

/-! ## Action-trace lemmas for the all-successful oracle -/

theorem askStats_envOK_actions (st : Store) (acts : List Action) (is : InterState) :
    (askStats envOK st acts is).actions = acts := by
  simp [askStats, envOK]

theorem sendFollowUps_envOK (cs : List (List Char)) :
    ∀ (i : Nat) (acts : List Action),
      sendFollowUps envOK cs i acts = (acts ++ cs.map Action.followUp, false) := by
  induction cs with
  | nil => intro i acts; simp [sendFollowUps]
  | cons c rest ih =>
    intro i acts
    simp [sendFollowUps, envOK, ih (i + 1)]

theorem askDeliver_envOK_actions (r : List Char) (st : Store) (acts : List Action)
    (is : InterState) :
    (askDeliver envOK r st acts is).actions =
      acts ++ (if r.length ≤ 1900 then [Action.editReply r]
        else Action.editReply ((splitMessage r 1900).headD []) ::
          ((splitMessage r 1900).drop 1).map Action.followUp) := by
  unfold askDeliver
  by_cases h : r.length ≤ 1900
  · rw [if_pos h, if_pos h]
    simp [envOK, askStats_envOK_actions]
  · rw [if_neg h, if_neg h]
    simp only [envOK, Bool.false_eq_true, if_false]
    rw [sendFollowUps_envOK]
    simp [askStats_envOK_actions]

theorem askCore_envOK_actions (inp : CommandInput) (r : List Char) (st : Store)
    (cid : Nat) (acts : List Action) (is : InterState) :
    (askCore envOK inp (genConst r) st cid acts is).actions =
      acts ++ (if r.length ≤ 1900 then [Action.editReply r]
        else Action.editReply ((splitMessage r 1900).headD []) ::
          ((splitMessage r 1900).drop 1).map Action.followUp) := by
  unfold askCore
  simp only [envOK, Bool.false_eq_true, if_false, genConst]
  exact askDeliver_envOK_actions r _ acts is

theorem askConversation_envOK_actions (inp : CommandInput) (r : List Char) (st : Store)
    (acts : List Action) (is : InterState) :
    (askConversation envOK inp (genConst r) st acts is).actions =
      acts ++ (if r.length ≤ 1900 then [Action.editReply r]
        else Action.editReply ((splitMessage r 1900).headD []) ::
          ((splitMessage r 1900).drop 1).map Action.followUp) := by
  unfold askConversation
  simp only [envOK, Bool.false_eq_true, if_false]
  split
  · exact askCore_envOK_actions inp r st _ acts is
  · exact askCore_envOK_actions inp r _ _ acts is

theorem handleAICommand_envOK_const_actions (r : List Char) (inp : CommandInput)
    (st : Store) :
    (handleAICommand envOK inp (genConst r) st).actions =
      Action.deferReply ::
        (if r.length ≤ 1900 then [Action.editReply r]
         else Action.editReply ((splitMessage r 1900).headD []) ::
           ((splitMessage r 1900).drop 1).map Action.followUp) := by
  unfold handleAICommand
  simp only [envOK, Bool.false_eq_true, if_false]
  split
  · simpa using askConversation_envOK_actions inp r st [Action.deferReply] ⟨false, true⟩
  · simpa using askConversation_envOK_actions inp r _ [Action.deferReply] ⟨false, true⟩

/-! ## Settings upsert lemmas -/

theorem find?_guild_append_none (l : List GuildSettings) (g : String)
    (payload : GuildSettings) (hp : payload.guildId = g)
    (h : l.find? (fun s => s.guildId == g) = none) :
    (l ++ [payload]).find? (fun s => s.guildId == g) = some payload := by
  induction l with
  | nil =>
    simp [List.find?, hp]
  | cons a t ih =>
    rw [List.cons_append]
    simp only [List.find?_cons] at h ⊢
    cases ha : (a.guildId == g) with
    | true =>
      rw [ha] at h
      simp at h
    | false =>
      simp only [ha] at h ⊢
      exact ih h

theorem find?_guild_map_replace (l : List GuildSettings) (g : String)
    (payload : GuildSettings) (hp : payload.guildId = g) (s0 : GuildSettings)
    (h : l.find? (fun s => s.guildId == g) = some s0) :
    (l.map (fun s => if s.guildId == g then payload else s)).find?
      (fun s => s.guildId == g) = some payload := by
  induction l with
  | nil => simp [List.find?] at h
  | cons a t ih =>
    simp only [List.find?_cons] at h
    cases ha : (a.guildId == g) with
    | true =>
      have hpa : a.guildId = g := beq_iff_eq.mp ha
      simp [List.map_cons, List.find?_cons, hpa, hp]
    | false =>
      simp only [ha] at h
      simp only [List.map_cons, ha, Bool.false_eq_true, if_false, List.find?_cons]
      exact ih h

theorem getSettings_after_upsert (st : Store) (payload : GuildSettings) :
    getSettingsByGuildId (createOrUpdateSettings st payload).2 payload.guildId =
      some payload := by
  unfold getSettingsByGuildId createOrUpdateSettings
  cases hfind : st.settings.find? (fun s => s.guildId == payload.guildId) with
  | none =>
    dsimp only
    exact find?_guild_append_none st.settings payload.guildId payload rfl hfind
  | some s0 =>
    dsimp only
    exact find?_guild_map_replace st.settings payload.guildId payload rfl s0 hfind

theorem guildId_eq_of_getSettings (st : Store) (g : String) (s : GuildSettings)
    (h : getSettingsByGuildId st g = some s) : s.guildId = g := by
  unfold getSettingsByGuildId at h
  have h2 := @List.find?_some GuildSettings (fun x => x.guildId == g) s st.settings h
  exact beq_iff_eq.mp h2

/-! ## Claim C1 -/

/-- Claim C1 (code bug evaluation): a fully successful ask cycle against an
existing stats record of 5 total messages and 3 api calls writes the record
back unchanged instead of incrementing, because the JS expression
`(await getBotStats())?.totalMessages ?? 0 + 1` parses as `x ?? (0 + 1)`; only
the missing-record case produces the value 1 for each counter. -/
theorem botStats_not_incremented :
    (handleAICommand envOK sampleInput (genConst "hi".toList) statsStore).store.botStats =
        some { totalMessages := 5, apiCalls := 3 } ∧
    (handleAICommand envOK sampleInput (genConst "hi".toList) statsStore).thrown = false ∧
    (handleAICommand envOK sampleInput (genConst "hi".toList) statsStore).store.botStats ≠
        some { totalMessages := 6, apiCalls := 4 } ∧
    (handleAICommand envOK sampleInput (genConst "hi".toList) emptyStore).store.botStats =
        some { totalMessages := 1, apiCalls := 1 } := by
  decide

/-! ## Claim C2 -/

/-- Claim C2 counterexample: when the user lookup throws during an ask command,
the dispatcher run ends with the handler-local edit carrying the
generation-error text; the generic processing apology never appears, so the
error did not reach the dispatcher boundary. -/
theorem ask_store_failure_not_at_boundary_cx :
    (handleSlashCommand (envFail .opGetUser) "ai" sampleInput (genConst "hi".toList)
        emptyStore).actions = [.deferReply, .editReply errGenerating] ∧
    Action.editReply errProcessing ∉
      (handleSlashCommand (envFail .opGetUser) "ai" sampleInput (genConst "hi".toList)
        emptyStore).actions ∧
    Action.reply errProcessing true ∉
      (handleSlashCommand (envFail .opGetUser) "ai" sampleInput (genConst "hi".toList)
        emptyStore).actions := by
  decide

/-- Claim C2 (amended): every failure inside the ask handler try block — all
persistence operations included — is caught by the handler itself; provided the
initial deferral and the handler error edit do not throw, no exception
propagates to the dispatcher boundary. -/
theorem ask_handler_never_propagates (env : OpId → Bool) (inp : CommandInput)
    (gen : List Char → List StoredMessage → Option String → Option String → List Char)
    (st : Store) (hdefer : env .deferReplyAsk = false)
    (hedit : env .editReplyAskError = false) :
    (handleAICommand env inp gen st).thrown = false := by
  unfold handleAICommand
  rw [if_neg (by simp [hdefer])]
  dsimp only
  split
  · exact askCatch_not_thrown env st _ _ hedit
  · split
    · exact askConversation_not_thrown env inp gen st _ _ hedit
    · split
      · exact askCatch_not_thrown env st _ _ hedit
      · exact askConversation_not_thrown env inp gen _ _ _ hedit

theorem ask_handler_never_propagates_witness :
    (envFail .opGetUser) .deferReplyAsk = false ∧
    (envFail .opGetUser) .editReplyAskError = false ∧
    (handleAICommand (envFail .opGetUser) sampleInput (genConst []) emptyStore).thrown
      = false :=
  ⟨by decide, by decide,
    ask_handler_never_propagates (envFail .opGetUser) sampleInput (genConst [])
      emptyStore (by decide) (by decide)⟩

/-! ## Outcome lemmas for the settings handlers under the all-successful oracle -/

theorem handleAIModeCommand_existing (st : Store) (inp : CommandInput) (s : GuildSettings)
    (hs : getSettingsByGuildId st (jsOr inp.guildId "DM") = some s) :
    handleAIModeCommand envOK inp st =
      ⟨(createOrUpdateSettings st { s with slashCommandMode := inp.modeArg }).2,
       [.reply (modeReplyContent inp.modeArg) true], ⟨true, false⟩, false⟩ := by
  unfold handleAIModeCommand
  rw [if_neg (by simp [envOK])]
  dsimp only
  rw [hs]
  dsimp only
  rw [if_neg (by simp [envOK]), if_neg (by simp [envOK])]

theorem handleAIModeCommand_fresh (st : Store) (inp : CommandInput)
    (hs : getSettingsByGuildId st (jsOr inp.guildId "DM") = none) :
    handleAIModeCommand envOK inp st =
      ⟨(createOrUpdateSettings st
          { guildId := jsOr inp.guildId "DM", pfx := "", responseLength := "medium",
            personality := "helpful", codeFormat := true, allowedChannels := [],
            channelMode := "all", slashCommandMode := inp.modeArg,
            activatedChannels := [] }).2,
       [.reply (modeReplyContent inp.modeArg) true], ⟨true, false⟩, false⟩ := by
  unfold handleAIModeCommand
  rw [if_neg (by simp [envOK])]
  dsimp only
  rw [hs]
  dsimp only
  rw [if_neg (by simp [envOK]), if_neg (by simp [envOK])]

theorem handleActivateCommand_existing (st : Store) (inp : CommandInput)
    (s : GuildSettings)
    (hs : getSettingsByGuildId st (jsOr inp.guildId "DM") = some s) :
    handleActivateCommand envOK inp st =
      ⟨(createOrUpdateSettings st
          { s with
            activatedChannels :=
              if s.activatedChannels.contains (jsOr inp.channelId "DM") then
                s.activatedChannels
              else s.activatedChannels ++ [jsOr inp.channelId "DM"],
            slashCommandMode := "activated" }).2,
       [.reply activateConfirm true], ⟨true, false⟩, false⟩ := by
  unfold handleActivateCommand
  rw [if_neg (by simp [envOK])]
  dsimp only
  rw [hs]
  dsimp only
  rw [if_neg (by simp [envOK]), if_neg (by simp [envOK])]

theorem handleDeactivateCommand_existing (st : Store) (inp : CommandInput)
    (s : GuildSettings)
    (hs : getSettingsByGuildId st (jsOr inp.guildId "DM") = some s) :
    handleDeactivateCommand envOK inp st =
      ⟨(createOrUpdateSettings st
          { s with
            activatedChannels :=
              s.activatedChannels.filter (fun id => id ≠ jsOr inp.channelId "DM") }).2,
       [.reply deactivateConfirm true], ⟨true, false⟩, false⟩ := by
  unfold handleDeactivateCommand
  rw [if_neg (by simp [envOK])]
  dsimp only
  rw [hs]
  dsimp only
  rw [if_neg (by simp [envOK]), if_neg (by simp [envOK])]

/-! ## Claim C3 -/

/-- Claim C3: settings upserts are merges, not replaces — for an existing
record, the mode command changes only slashCommandMode and the activate command
changes only activatedChannels and slashCommandMode; every other field of the
stored record keeps its previous value (visible in the record-update form of
the right-hand sides). -/
theorem settings_upsert_is_merge (st : Store) (inp : CommandInput) (s : GuildSettings)
    (hs : getSettingsByGuildId st (jsOr inp.guildId "DM") = some s) :
    getSettingsByGuildId (handleAIModeCommand envOK inp st).store
        (jsOr inp.guildId "DM") =
      some { s with slashCommandMode := inp.modeArg } ∧
    getSettingsByGuildId (handleActivateCommand envOK inp st).store
        (jsOr inp.guildId "DM") =
      some { s with
        activatedChannels :=
          if s.activatedChannels.contains (jsOr inp.channelId "DM") then
            s.activatedChannels
          else s.activatedChannels ++ [jsOr inp.channelId "DM"],
        slashCommandMode := "activated" } := by
  have hkey : s.guildId = jsOr inp.guildId "DM" := guildId_eq_of_getSettings _ _ _ hs
  constructor
  · rw [handleAIModeCommand_existing st inp s hs]
    dsimp only
    rw [← hkey]
    exact getSettings_after_upsert st _
  · rw [handleActivateCommand_existing st inp s hs]
    dsimp only
    rw [← hkey]
    exact getSettings_after_upsert st _

theorem settings_upsert_is_merge_witness :
    getSettingsByGuildId sampleStore (jsOr sampleInput.guildId "DM") =
        some sampleSettings ∧
    getSettingsByGuildId (handleAIModeCommand envOK sampleInput sampleStore).store
        (jsOr sampleInput.guildId "DM") =
      some { sampleSettings with slashCommandMode := sampleInput.modeArg } :=
  ⟨by decide,
    (settings_upsert_is_merge sampleStore sampleInput sampleSettings (by decide)).1⟩

/-! ## Claim C4 -/

/-- Claim C4 counterexample: deactivating a channel on a guild whose stored
mode is `enabled` removes the channel from the activated list but leaves the
slash-command mode `enabled` — it is not set to `activated` as the claim
states. -/
theorem deactivate_leaves_mode_cx :
    getSettingsByGuildId (handleDeactivateCommand envOK sampleInput sampleStore).store
        "G1" = some { sampleSettings with activatedChannels := [] } ∧
    ({ sampleSettings with activatedChannels := ([] : List String) }).slashCommandMode
      = "enabled" ∧
    ¬ ({ sampleSettings with activatedChannels := ([] : List String) }).slashCommandMode
      = "activated" := by
  decide

/-- Claim C4 (amended): activate adds the current channel to the activated
list without duplicates and sets the slash-command mode to `activated`;
deactivate removes the channel but leaves the slash-command mode unchanged;
both reply ephemerally with a confirmation. -/
theorem activate_adds_deactivate_removes (st : Store) (inp : CommandInput)
    (s : GuildSettings)
    (hs : getSettingsByGuildId st (jsOr inp.guildId "DM") = some s) :
    getSettingsByGuildId (handleActivateCommand envOK inp st).store
        (jsOr inp.guildId "DM") =
      some { s with
        activatedChannels :=
          if s.activatedChannels.contains (jsOr inp.channelId "DM") then
            s.activatedChannels
          else s.activatedChannels ++ [jsOr inp.channelId "DM"],
        slashCommandMode := "activated" } ∧
    (handleActivateCommand envOK inp st).actions = [.reply activateConfirm true] ∧
    getSettingsByGuildId (handleDeactivateCommand envOK inp st).store
        (jsOr inp.guildId "DM") =
      some { s with
        activatedChannels :=
          s.activatedChannels.filter (fun id => id ≠ jsOr inp.channelId "DM") } ∧
    (handleDeactivateCommand envOK inp st).actions = [.reply deactivateConfirm true] := by
  have hkey : s.guildId = jsOr inp.guildId "DM" := guildId_eq_of_getSettings _ _ _ hs
  refine ⟨?_, ?_, ?_, ?_⟩
  · rw [handleActivateCommand_existing st inp s hs]
    dsimp only
    rw [← hkey]
    exact getSettings_after_upsert st _
  · rw [handleActivateCommand_existing st inp s hs]
  · rw [handleDeactivateCommand_existing st inp s hs]
    dsimp only
    rw [← hkey]
    exact getSettings_after_upsert st _
  · rw [handleDeactivateCommand_existing st inp s hs]

theorem activate_adds_deactivate_removes_witness :
    getSettingsByGuildId sampleStore (jsOr sampleInput.guildId "DM") =
        some sampleSettings ∧
    (handleDeactivateCommand envOK sampleInput sampleStore).actions =
      [.reply deactivateConfirm true] :=
  ⟨by decide,
    (activate_adds_deactivate_removes sampleStore sampleInput sampleSettings
      (by decide)).2.2.2⟩

/-! ## Claim C7 -/

/-- Claim C7: a mode command on a guild with no prior settings creates a record
carrying the documented defaults with slashCommandMode equal to the supplied
mode, and replies ephemerally with the human-readable mode description; for the
required mode that description contains the phrase about responding only when
summoned. -/
theorem aimode_first_time_defaults (st : Store) (inp : CommandInput)
    (hs : getSettingsByGuildId st (jsOr inp.guildId "DM") = none) :
    getSettingsByGuildId (handleAIModeCommand envOK inp st).store
        (jsOr inp.guildId "DM") =
      some { guildId := jsOr inp.guildId "DM", pfx := "", responseLength := "medium",
             personality := "helpful", codeFormat := true, allowedChannels := [],
             channelMode := "all", slashCommandMode := inp.modeArg,
             activatedChannels := [] } ∧
    (handleAIModeCommand envOK inp st).actions =
      [.reply (modeReplyContent inp.modeArg) true] ∧
    (inp.modeArg = "required" →
      ∃ a b, modeReplyContent inp.modeArg =
        a ++ "ONLY respond when summoned".toList ++ b) := by
  have h1 := handleAIModeCommand_fresh st inp hs
  refine ⟨?_, ?_, ?_⟩
  · rw [h1]
    dsimp only
    exact getSettings_after_upsert st _
  · rw [h1]
  · intro hm
    rw [hm]
    exact ⟨"✅ AI mode updated!\n\n**The bot will ".toList,
      " via /ai command**\n\nUse `/ai [your prompt]` to interact with the AI assistant.".toList,
      by decide⟩

theorem aimode_first_time_defaults_witness :
    getSettingsByGuildId emptyStore (jsOr sampleInput.guildId "DM") = none ∧
    sampleInput.modeArg = "required" ∧
    (∃ a b, modeReplyContent sampleInput.modeArg =
      a ++ "ONLY respond when summoned".toList ++ b) :=
  ⟨by decide, by decide,
    (aimode_first_time_defaults emptyStore sampleInput (by decide)).2.2 (by decide)⟩

/-! ## Claim C8 -/

/-- Claim C8: the dispatcher boundary sends a single ephemeral apology when
nothing was replied or deferred, edits the deferred reply with the same text
when a deferral is outstanding, and never re-raises — also when the error
reply itself fails. -/
theorem dispatcher_error_recovery (env : OpId → Bool) (st : Store) (acts : List Action)
    (is : InterState) :
    (is.replied = false → is.deferred = false → env .dispatcherReplyError = false →
      (dispatchRecover env st acts is).actions = acts ++ [.reply errProcessing true]) ∧
    (is.deferred = true → env .dispatcherEditError = false →
      (dispatchRecover env st acts is).actions = acts ++ [.editReply errProcessing]) ∧
    (dispatchRecover env st acts is).thrown = false := by
  refine ⟨?_, ?_, ?_⟩
  · intro h1 h2 h3
    simp [dispatchRecover, h1, h2, h3]
  · intro h1 h2
    simp [dispatchRecover, h1, h2]
  · unfold dispatchRecover
    split
    · split
      · rfl
      · rfl
    · split
      · split
        · rfl
        · rfl
      · rfl

/-! ## Reduction of the ask handler to its delivery stage -/

theorem askCore_to_deliver (env : OpId → Bool) (r : List Char) (inp : CommandInput)
    (st : Store) (cid : Nat) (acts : List Action) (is : InterState)
    (h6 : env .createUserMessage = false) (h7 : env .getMessagesOp = false)
    (h8 : env .getSettingsAsk = false) (h9 : env .generate = false)
    (h10 : env .createAssistantMessage = false) :
    ∃ st2 : Store, askCore env inp (genConst r) st cid acts is =
      askDeliver env r st2 acts is := by
  unfold askCore
  rw [if_neg (by simp [h6])]
  try dsimp only
  rw [if_neg (by simp [h7])]
  try dsimp only
  rw [if_neg (by simp [h8])]
  try dsimp only
  rw [if_neg (by simp [h9])]
  try dsimp only [genConst]
  rw [if_neg (by simp [h10])]
  try dsimp only
  exact ⟨_, rfl⟩

theorem askConversation_to_deliver (env : OpId → Bool) (r : List Char)
    (inp : CommandInput) (st : Store) (acts : List Action) (is : InterState)
    (h4 : env .opGetConversation = false) (h5 : env .opCreateConversation = false)
    (h6 : env .createUserMessage = false) (h7 : env .getMessagesOp = false)
    (h8 : env .getSettingsAsk = false) (h9 : env .generate = false)
    (h10 : env .createAssistantMessage = false) :
    ∃ st2 : Store, askConversation env inp (genConst r) st acts is =
      askDeliver env r st2 acts is := by
  unfold askConversation
  rw [if_neg (by simp [h4])]
  try dsimp only
  cases hconv : getConversationByChannelAndUser st (jsOr inp.channelId "DM") inp.userId with
  | some conv => exact askCore_to_deliver env r inp st conv.id acts is h6 h7 h8 h9 h10
  | none =>
    rw [if_neg (by simp [h5])]
    try dsimp only
    exact askCore_to_deliver env r inp _ _ acts is h6 h7 h8 h9 h10

theorem handleAICommand_to_deliver (env : OpId → Bool) (r : List Char)
    (inp : CommandInput) (st : Store)
    (h1 : env .deferReplyAsk = false) (h2 : env .opGetUser = false)
    (h3 : env .opCreateUser = false)
    (h4 : env .opGetConversation = false) (h5 : env .opCreateConversation = false)
    (h6 : env .createUserMessage = false) (h7 : env .getMessagesOp = false)
    (h8 : env .getSettingsAsk = false) (h9 : env .generate = false)
    (h10 : env .createAssistantMessage = false) :
    ∃ st2 : Store, handleAICommand env inp (genConst r) st =
      askDeliver env r st2 [Action.deferReply] ⟨false, true⟩ := by
  unfold handleAICommand
  rw [if_neg (by simp [h1])]
  try dsimp only
  rw [if_neg (by simp [h2])]
  cases huser : getUserByDiscordId st inp.userId with
  | some u =>
    exact askConversation_to_deliver env r inp st [Action.deferReply] ⟨false, true⟩
      h4 h5 h6 h7 h8 h9 h10
  | none =>
    rw [if_neg (by simp [h3])]
    exact askConversation_to_deliver env r inp _ [Action.deferReply] ⟨false, true⟩
      h4 h5 h6 h7 h8 h9 h10

/-! ## Claim C6 -/

/-- Claim C6 counterexample: a 5000-character all-space response (a
5000-character string with no newlines) is chunked into only two 1900-character
segments — the trailing 1200 characters are trimmed away — so the handler
sends a single follow-up, not the ceil(5000/1900) - 1 = 2 the claim requires,
and the delivered segments do not cover the remainder. -/
theorem long_whitespace_response_fewer_followups_cx :
    (handleAICommand envOK sampleInput (genConst (List.replicate 5000 ' '))
        emptyStore).actions =
      [.deferReply, .editReply (List.replicate 1900 ' '),
       .followUp (List.replicate 1900 ' ')] ∧
    (5000 + 1900 - 1) / 1900 - 1 = 2 := by
  constructor
  · rw [handleAICommand_envOK_const_actions]
    have h5 : (List.replicate 5000 ' ').length = 5000 := by
      rw [List.length_replicate]
    have hn : ∀ c ∈ List.replicate 5000 ' ', c ≠ '\n' := by
      intro c hc
      rw [List.eq_of_mem_replicate hc]
      decide
    have hjt : jsTrim ((List.replicate 5000 ' ').drop 3800) = [] := by
      rw [List.drop_replicate]
      exact jsTrim_replicate_space _
    rw [if_neg (by rw [List.length_replicate]; omega)]
    rw [splitMessage_5000_no_newline (List.replicate 5000 ' ') h5 hn]
    rw [if_neg (by rw [hjt]; exact fun hcon => hcon rfl)]
    have e1 : (List.replicate 5000 ' ').take 1900 = List.replicate 1900 ' ' := by
      rw [List.take_replicate, show min 1900 5000 = 1900 by omega]
    have e2 : ((List.replicate 5000 ' ').drop 1900).take 1900 =
        List.replicate 1900 ' ' := by
      rw [List.drop_replicate, show (5000 : Nat) - 1900 = 3100 from rfl,
        List.take_replicate, show min 1900 3100 = 1900 by omega]
    rw [e1, e2]
    rfl
  · norm_num

/-- Claim C6 (amended): for a 5000-character response with no whitespace at
all (in particular no newlines), the handler edits the deferred reply with the
first 1900 characters and sends exactly two ordered follow-ups — characters
1900-3800 and the remaining 1200 characters; in general a line longer than L is
hard-sliced into ceil(len/L) pieces: ceil(len/L) - 1 emitted pieces of exactly
L characters plus a nonempty remainder of at most L characters carried into the
next segment (that remainder is trimmed when flushed, so a whitespace-only
remainder is dropped). -/
theorem long_response_chunk_delivery :
    (∀ (s : List Char) (inp : CommandInput) (st : Store),
      s.length = 5000 → (∀ c ∈ s, isWS c = false) →
      (handleAICommand envOK inp (genConst s) st).actions =
        [.deferReply, .editReply (s.take 1900),
         .followUp ((s.drop 1900).take 1900), .followUp (s.drop 3800)]) ∧
    (∀ (line : List Char) (L : Nat), 1 ≤ L → L < line.length →
      (∀ p ∈ (hardSlice L line).1, p.length = L) ∧
      (hardSlice L line).1.flatten ++ (hardSlice L line).2 = line ∧
      1 ≤ (hardSlice L line).2.length ∧ (hardSlice L line).2.length ≤ L ∧
      (hardSlice L line).1.length + 1 = (line.length + L - 1) / L) := by
  constructor
  · intro s inp st h5 hws
    have hn : ∀ c ∈ s, c ≠ '\n' := by
      intro c hc he
      have hx := hws c hc
      rw [he] at hx
      simp [isWS] at hx
    have hsub : ∀ c ∈ s.drop 3800, isWS c = false := fun c hc =>
      hws c (List.drop_subset 3800 s hc)
    have hjt : jsTrim (s.drop 3800) = s.drop 3800 := jsTrim_eq_self _ hsub
    have hne : s.drop 3800 ≠ [] := by
      intro hcon
      have hlen := congrArg List.length hcon
      rw [List.length_drop, h5] at hlen
      simp at hlen
    rw [handleAICommand_envOK_const_actions]
    rw [if_neg (by omega)]
    rw [splitMessage_5000_no_newline s h5 hn]
    rw [if_pos (by rw [hjt]; exact hne)]
    simp [hjt]
  · intro line L hL hlen
    obtain ⟨hj, hp, hc, hr⟩ := hardSlice_spec L hL line
    refine ⟨hp, hj, (hr hlen).1, (hr hlen).2, ?_⟩
    rw [hc]
    have h1 : line.length + L - 1 = (line.length - 1) + L := by omega
    rw [h1, Nat.add_div_right _ (by omega)]

theorem long_response_chunk_delivery_witness :
    (List.replicate 5000 'a').length = 5000 ∧
    (handleAICommand envOK sampleInput (genConst (List.replicate 5000 'a'))
        emptyStore).actions =
      [.deferReply, .editReply ((List.replicate 5000 'a').take 1900),
       .followUp (((List.replicate 5000 'a').drop 1900).take 1900),
       .followUp ((List.replicate 5000 'a').drop 3800)] ∧
    1 ≤ 2 ∧ 2 < (['x', 'y', 'z'] : List Char).length ∧
    (∀ p ∈ (hardSlice 2 ['x', 'y', 'z']).1, p.length = 2) :=
  ⟨by rw [List.length_replicate],
    long_response_chunk_delivery.1 (List.replicate 5000 'a') sampleInput emptyStore
      (by rw [List.length_replicate])
      (by
        intro c hc
        rw [List.eq_of_mem_replicate hc]
        decide),
    by decide, by decide,
    (long_response_chunk_delivery.2 ['x', 'y', 'z'] 2 (by decide) (by decide)).1⟩

/-- Symbolic evaluation of `splitMessage` on 1901 repeated letters: one full
1900-character hard slice plus the single-character remainder. -/
theorem splitMessage_replicate_1901 :
    splitMessage (List.replicate 1901 'a') 1900 =
      [List.replicate 1900 'a', ['a']] := by
  set B := List.replicate 1901 'a' with hB
  set T := List.replicate 1900 'a' with hT
  have hlen : B.length = 1901 := by rw [hB, List.length_replicate]
  have hn : ∀ c ∈ B, c ≠ '\n' := by
    rw [hB]
    intro c hc
    rw [List.eq_of_mem_replicate hc]
    decide
  have hdrop : B.drop 1900 = ['a'] := by
    rw [hB, List.drop_replicate, show (1901 : Nat) - 1900 = 1 from rfl]
    rfl
  have htake : B.take 1900 = T := by
    rw [hB, hT, List.take_replicate, show min 1900 1901 = 1900 by omega]
  have hslice : hardSlice 1900 B = ([T], ['a']) := by
    unfold hardSlice
    rw [hlen]
    rw [hardSliceGo_fuel_succ_pos 1900 1901 1900 B rfl (by rw [hlen]; omega)]
    rw [hdrop, htake]
    rw [hardSliceGo_fuel_succ_stop 1900 1900 1899 ['a'] rfl (by decide)]
  have hstep : splitStep 1900 ([], []) B = ([T], ['a']) := by
    have h1 : (([], []) : List (List Char) × List Char).2.length + B.length + 1
        > 1900 := by
      simp only []
      rw [hlen]
      omega
    have h2 : B.length > 1900 := by
      rw [hlen]
      omega
    simp only [splitStep, if_pos h1, if_pos h2, hslice]
    rw [show jsTrim ([] : List Char) = [] from rfl]
    rw [if_neg (fun hcon => hcon rfl)]
    rw [List.nil_append]
  unfold splitMessage
  rw [if_neg (by rw [hlen]; omega)]
  rw [splitLines_no_newline B hn]
  have hfold : ([B].foldl (splitStep 1900) ([], [])) = ([T], ['a']) := by
    rw [List.foldl_cons, hstep, List.foldl_nil]
  rw [hfold]
  try dsimp only
  rw [show jsTrim (['a'] : List Char) = ['a'] from by decide]
  rw [if_pos (by decide : (['a'] : List Char) ≠ [])]
  rw [if_pos (by simp : ([T] ++ [['a']]).length > 0)]
  rfl

/-! ## Claim C10 -/

/-- Claim C10: an error thrown after the response has already been delivered —
a failing stats write after the short-response edit, or a failing follow-up
send after the first chunk edit — runs the handler catch, which edits the
deferred reply again with the generic generation-error text, replacing the
already-delivered content. -/
theorem late_error_overwrites_delivered_reply :
    (∀ (r : List Char) (inp : CommandInput) (st : Store), r.length ≤ 1900 →
      (handleAICommand envUpdateStatsFails inp (genConst r) st).actions =
        [.deferReply, .editReply r, .editReply errGenerating]) ∧
    (∀ (r : List Char) (inp : CommandInput) (st : Store) (c0 c1 : List Char)
        (rest : List (List Char)), ¬ r.length ≤ 1900 →
      splitMessage r 1900 = c0 :: c1 :: rest →
      (handleAICommand envFollowUp1Fails inp (genConst r) st).actions =
        [.deferReply, .editReply c0, .editReply errGenerating]) := by
  constructor
  · intro r inp st hr
    obtain ⟨st2, heq⟩ := handleAICommand_to_deliver envUpdateStatsFails r inp st
      rfl rfl rfl rfl rfl rfl rfl rfl rfl rfl
    rw [heq]
    unfold askDeliver
    rw [if_pos hr, if_neg (by simp [envUpdateStatsFails])]
    simp [askStats, envUpdateStatsFails, askCatch]
  · intro r inp st c0 c1 rest hr hsplit
    obtain ⟨st2, heq⟩ := handleAICommand_to_deliver envFollowUp1Fails r inp st
      rfl rfl rfl rfl rfl rfl rfl rfl rfl rfl
    rw [heq]
    unfold askDeliver
    rw [if_neg hr]
    try dsimp only
    rw [hsplit]
    rw [if_neg (by simp [envFollowUp1Fails])]
    have hf : envFollowUp1Fails (.followUpChunk 1) = true := rfl
    try dsimp only
    simp [sendFollowUps, hf, askCatch, envFollowUp1Fails]

theorem late_error_overwrites_delivered_reply_witness :
    ("ok".toList).length ≤ 1900 ∧
    (handleAICommand envUpdateStatsFails sampleInput (genConst "ok".toList)
        emptyStore).actions =
      [.deferReply, .editReply "ok".toList, .editReply errGenerating] ∧
    ¬ (List.replicate 1901 'a').length ≤ 1900 ∧
    splitMessage (List.replicate 1901 'a') 1900 =
      (List.replicate 1900 'a') :: ['a'] :: [] ∧
    (handleAICommand envFollowUp1Fails sampleInput
        (genConst (List.replicate 1901 'a')) emptyStore).actions =
      [.deferReply, .editReply (List.replicate 1900 'a'), .editReply errGenerating] :=
  ⟨by decide,
    late_error_overwrites_delivered_reply.1 ("ok".toList) sampleInput emptyStore
      (by decide),
    by rw [List.length_replicate]; omega,
    splitMessage_replicate_1901,
    late_error_overwrites_delivered_reply.2 (List.replicate 1901 'a') sampleInput
      emptyStore (List.replicate 1900 'a') ['a'] []
      (by rw [List.length_replicate]; omega) splitMessage_replicate_1901⟩

theorem dispatcher_error_recovery_witness :
    (dispatchRecover envOK emptyStore [] ⟨false, false⟩).actions =
        [] ++ [.reply errProcessing true] ∧
    (dispatchRecover envOK emptyStore [Action.deferReply] ⟨false, true⟩).actions =
        [Action.deferReply] ++ [.editReply errProcessing] :=
  ⟨(dispatcher_error_recovery envOK emptyStore [] ⟨false, false⟩).1 rfl rfl rfl,
   (dispatcher_error_recovery envOK emptyStore [Action.deferReply] ⟨false, true⟩).2.1
     rfl rfl⟩

end DiscordBot
